import Mathlib

/-!
Shallow embedding of the gift-card fulfillment service (webhook pipeline,
code-pool allocator, admin endpoints) together with proofs about the
claims of the specification.

Python payloads are embedded as a JSON-like value type `JVal`; Python
semantics that the source relies on (truthiness, `or`, `str()`, `int()`,
`dict.get`) are embedded explicitly.  Fallible Python expressions (those
that can raise past the relevant boundary) return `Except PyErr`.
-/

/-- Python exception kinds that the embedded code can raise. -/
inductive PyErr where
  | typeError
  | valueError
  | attributeError
deriving DecidableEq

/-- Python `str.strip()` on both ends, structurally on the char list. -/
def trimChars (cs : List Char) : List Char :=
  ((cs.dropWhile Char.isWhitespace).reverse.dropWhile Char.isWhitespace).reverse

/-- Python `str.strip()`. -/
def pyStrip (s : String) : String := String.mk (trimChars s.data)

/-- Python `str.rstrip()`. -/
def pyRStrip (s : String) : String :=
  String.mk ((s.data.reverse.dropWhile Char.isWhitespace).reverse)

/-- Split a char list at newline characters (the `splitlines` of the
newline-separated admin input). -/
def splitNl (cs : List Char) : List (List Char) :=
  match cs with
  | [] => [[]]
  | c :: rest =>
      let r := splitNl rest
      if c = '\n' then [] :: r
      else
        match r with
        | [] => [[c]]
        | g :: gs => (c :: g) :: gs

/-- A JSON-like value, standing for the Python objects that appear in
webhook payloads: `None`, booleans, integers, strings, lists and dicts. -/
inductive JVal where
  | jnull
  | jbool (b : Bool)
  | jint (n : Int)
  | jstr (s : String)
  | jarr (xs : List JVal)
  | jobj (fields : List (String × JVal))

namespace JVal

/-- Python truthiness of a value (`bool(x)`). -/
def truthy : JVal → Bool
  | jnull => false
  | jbool b => b
  | jint n => n != 0
  | jstr s => s != ""
  | jarr xs => !xs.isEmpty
  | jobj fs => !fs.isEmpty

/-- Python `a or b`: `a` if `a` is truthy, otherwise `b`. -/
def pyOr (a b : JVal) : JVal := if truthy a then a else b

/-- Lookup of a key in a dict's field list (first binding wins),
defaulting to `None` like Python's `dict.get`. -/
def lookupD (fs : List (String × JVal)) (k : String) : JVal :=
  match fs.find? (fun f => f.1 == k) with
  | some f => f.2
  | none => jnull

/-- `v.get(k)` where `v` is statically known to be a dict (total). -/
def oget (v : JVal) (k : String) : JVal :=
  match v with
  | jobj fs => lookupD fs k
  | _ => jnull

/-- `v.get(k)` where `v` may not be a dict: raises `AttributeError` on a
non-dict receiver, exactly like Python. -/
def pyGetE (v : JVal) (k : String) : Except PyErr JVal :=
  match v with
  | jobj fs => .ok (lookupD fs k)
  | _ => .error .attributeError

/-- `k in v` for a dict `v`. -/
def hasKey (v : JVal) (k : String) : Bool :=
  match v with
  | jobj fs => fs.any (fun f => f.1 == k)
  | _ => false

/-- Python `repr()` restricted to the value shapes we model.  The fuel
argument bounds the container nesting depth (recursion must be
structural so that concrete payloads evaluate inside proofs); with the
generous bound used by `pyRepr` it is never exhausted on the payloads
of this development. -/
def pyReprFuel : Nat → JVal → String
  | _, jnull => "None"
  | _, jbool b => if b then "True" else "False"
  | _, jint n => toString n
  | _, jstr s => "'" ++ s ++ "'"
  | 0, jarr _ => "[...]"
  | fuel + 1, jarr xs =>
      "[" ++ String.intercalate ", " (xs.map (pyReprFuel fuel)) ++ "]"
  | 0, jobj _ => "\x7b...\x7d"
  | fuel + 1, jobj fs =>
      "\x7b" ++
        String.intercalate ", "
          (fs.map (fun p => "'" ++ p.1 ++ "': " ++ pyReprFuel fuel p.2)) ++
      "\x7d"

/-- Python `repr()`. -/
def pyRepr (v : JVal) : String := pyReprFuel 1000 v

/-- Python `str()`. -/
def pyStr (v : JVal) : String :=
  match v with
  | jstr s => s
  | _ => pyRepr v

/-- Digits of a decimal string folded into a natural number. -/
def digitsToNat (cs : List Char) : Nat :=
  cs.foldl (fun acc c => acc * 10 + (c.toNat - 48)) 0

/-- Python `int(s)` on a string: optional surrounding whitespace and an
optional sign followed by at least one digit; anything else raises
`ValueError`. -/
def pyIntOfStr (s : String) : Option Int :=
  match trimChars s.data with
  | '-' :: rest =>
      if !rest.isEmpty && rest.all Char.isDigit then some (-(digitsToNat rest : Int)) else none
  | '+' :: rest =>
      if !rest.isEmpty && rest.all Char.isDigit then some ((digitsToNat rest : Int)) else none
  | cs =>
      if !cs.isEmpty && cs.all Char.isDigit then some ((digitsToNat cs : Int)) else none

/-- Python `int(x)`: identity on ints, `True`/`False` become `1`/`0`,
strings are parsed (`ValueError` on failure), everything else raises
`TypeError`. -/
def pyInt (v : JVal) : Except PyErr Int :=
  match v with
  | jint n => .ok n
  | jbool b => .ok (if b then 1 else 0)
  | jstr s =>
      match pyIntOfStr s with
      | some n => .ok n
      | none => .error .valueError
  | _ => .error .typeError

/-- Python `x.strip()`: raises `AttributeError` unless `x` is a string. -/
def pyStripE (v : JVal) : Except PyErr String :=
  match v with
  | jstr s => .ok (pyStrip s)
  | _ => .error .attributeError

end JVal

open JVal

/-!
## Code Pool Store (`database/models.py`, table `gift_codes`)

Columns actually used by the executed SQL: `id` (primary key), `code`
(globally unique), `value` (denomination) and `order_id` (nullable
reference of the order that consumed the code).
-/

/-- One row of the `gift_codes` table. -/
structure GiftCode where
  id : Nat
  code : String
  value : Int
  order_id : Option String
deriving DecidableEq

/-- `SELECT COUNT(*) FROM gift_codes WHERE order_id = :order_id AND value = :value`. -/
def countAssigned (tbl : List GiftCode) (s : String) (v : Int) : Nat :=
  tbl.countP (fun gc => decide (gc.order_id = some s ∧ gc.value = v))

/-- `SELECT id FROM gift_codes WHERE value = :value AND order_id IS NULL
ORDER BY id ASC LIMIT 1` — the id of the unused row of the requested
denomination with the smallest id, if any. -/
def selectFirstUnused (tbl : List GiftCode) (v : Int) : Option Nat :=
  ((tbl.filter (fun gc => decide (gc.order_id = none ∧ gc.value = v))).argmin GiftCode.id).map GiftCode.id

/-- `UPDATE gift_codes SET order_id = :order_id WHERE id = :id` — note
that the update is unconditional: it does not re-check `order_id IS NULL`. -/
def updateOrderId (tbl : List GiftCode) (gid : Nat) (s : String) : List GiftCode :=
  tbl.map (fun gc => if gc.id = gid then { gc with order_id := some s } else gc)

/-- `db.get(GiftCode, gift_id)` — fetch a row by primary key. -/
def getById (tbl : List GiftCode) (gid : Nat) : Option GiftCode :=
  tbl.find? (fun gc => gc.id == gid)

/-- `crud.assign_unused_gift_code`: select the first unused code of the
denomination, set its `order_id`, and return the updated row. -/
def assign_unused_gift_code (tbl : List GiftCode) (v : Int) (s : String) :
    Option (GiftCode × List GiftCode) :=
  match selectFirstUnused tbl v with
  | none => none
  | some gid =>
      let tbl' := updateOrderId tbl gid s
      match getById tbl' gid with
      | none => none
      | some gc => some (gc, tbl')

/-!
## Order Classifier (`main.py`: `_extract_giftcard_positions`, `_is_order_paid`,
email discovery and envelope probing inside `idosell_order_webhook`)
-/

/-- `GIFT_PRODUCT_ID = 14409`. -/
def GIFT_PRODUCT_ID : Int := 14409

/-- `GIFT_VARIANTS` — configured denomination labels, in insertion order. -/
def GIFT_VARIANTS : List (String × Int) :=
  [("100 zł", 100), ("200 zł", 200), ("300 zł", 300), ("500 zł", 500)]

/-- Substring test `needle in hay` on Python strings. -/
def strContainsSub (hay needle : String) : Bool :=
  hay.data.tails.any (fun t => needle.data.isPrefixOf t)

/-- One gift-card line extracted from the basket. -/
structure Pos where
  value : Int
  quantity : Int
deriving DecidableEq

/-- Quantity of a basket item:
`int(item.get("productQuantity") or item.get("quantity") or 1)`.
The item is known to be a dict at this point (its `productId` was already
read), but the `int()` coercion itself can raise and is not caught. -/
def quantityOf (item : JVal) : Except PyErr Int :=
  pyInt (pyOr (oget item "productQuantity") (pyOr (oget item "quantity") (JVal.jint 1)))

/-- The body of `_extract_giftcard_positions`' loop for one basket item:
`.ok none` means the item is skipped (not a gift card / unresolvable
denomination / non-gift product id), an error propagates out of the
classifier. -/
def extractOne (item : JVal) : Except PyErr (Option Pos) := do
  let pid0 ← pyGetE item "productId"
  match pyInt (pyOr pid0 (JVal.jint 0)) with
  | .error _ => return none
  | .ok pid =>
    if pid ≠ GIFT_PRODUCT_ID then return none
    else
      let parts := [oget item "productName", oget item "sizePanelName",
                    oget item "sizeName", oget item "versionName"]
      let variant_text := pyStrip (String.intercalate " " ((parts.filter truthy).map pyStr))
      let matched0 := (GIFT_VARIANTS.find? (fun lv => strContainsSub variant_text lv.1)).map Prod.snd
      let matched ← match matched0 with
        | some v => pure (some v)
        | none => do
            let raw := pyOr (oget item "sizePanelName") (pyOr (oget item "sizeName") (JVal.jstr ""))
            let rawS ← pyStripE raw
            let digits := String.mk (rawS.data.filter Char.isDigit)
            if digits ≠ "" then
              match pyInt (JVal.jstr digits) with
              | .ok m => pure (if (GIFT_VARIANTS.map Prod.snd).contains m then some m else none)
              | .error _ => pure none
            else pure none
      match matched with
      | none => return none
      | some v => do
          let q ← quantityOf item
          return some ⟨v, q⟩

/-- Sequential processing of the basket items, short-circuiting on the
first uncaught exception. -/
def extractList : List JVal → Except PyErr (List Pos)
  | [] => .ok []
  | item :: rest => do
      let r ← extractOne item
      let rs ← extractList rest
      pure (match r with | some p => p :: rs | none => rs)

/-- `_extract_giftcard_positions(order)`. -/
def extract_giftcard_positions (order : JVal) : Except PyErr (List Pos) := do
  let od := pyOr (oget order "orderDetails") (JVal.jobj [])
  let pr0 ← pyGetE od "productsResults"
  let products0 := pyOr pr0 (JVal.jarr [])
  let products ←
    if truthy products0 then pure products0
    else do
      let b ← pyGetE od "basket"
      let p ← pyGetE od "products"
      pure (pyOr b (pyOr p (JVal.jarr [])))
  match products with
  | .jarr items => extractList items
  | .jobj _ => .error .attributeError
  | .jstr _ => .error .attributeError
  | _ => .error .typeError

/-- Python `v == "y"`: true only when `v` is exactly the string `"y"`. -/
def isYStatus (v : JVal) : Bool :=
  match v with
  | JVal.jstr s => s == "y"
  | _ => false

/-- Short-circuiting `any(p.get("paymentStatus") == "y" for p in prepaids)`. -/
def anyPaid : List JVal → Except PyErr Bool
  | [] => .ok false
  | p :: ps => do
      let v ← pyGetE p "paymentStatus"
      if isYStatus v then pure true else anyPaid ps

/-- `_is_order_paid(order)`. -/
def is_order_paid (order : JVal) : Except PyErr Bool := do
  let od := pyOr (oget order "orderDetails") (JVal.jobj [])
  let pre0 ← pyGetE od "prepaids"
  let prepaids := pyOr pre0 (JVal.jarr [])
  match prepaids with
  | .jarr ps => anyPaid ps
  | .jobj _ => .error .attributeError
  | .jstr _ => .error .attributeError
  | _ => .error .typeError

/-- Email discovery of `idosell_order_webhook` (three nested probing
variants; a later variant is consulted only while the email found so far
is falsy).  `order` is a dict (guaranteed by the envelope probe), but the
intermediate `client.get(...)` receivers may not be, in which case Python
raises `AttributeError`. -/
def find_client_email (order : JVal) : Except PyErr JVal := do
  let client := pyOr (oget order "client") (JVal.jobj [])
  let contact0 ← pyGetE client "contact"
  let contact := pyOr contact0 (JVal.jobj [])
  let e1 := match contact with
    | JVal.jobj _ => oget contact "email"
    | _ => JVal.jnull
  if truthy e1 then pure e1
  else do
    let client_result := pyOr (oget order "clientResult") (JVal.jobj [])
    let ec0 ← pyGetE client_result "endClientAccount"
    let end_client := pyOr ec0 (JVal.jobj [])
    let e2 := match end_client with
      | JVal.jobj _ => oget end_client "clientEmail"
      | _ => JVal.jnull
    if truthy e2 then pure e2
    else do
      let ca0 ← pyGetE client_result "clientAccount"
      let client_account := pyOr ca0 (JVal.jobj [])
      let e3 := match client_account with
        | JVal.jobj _ => oget client_account "clientEmail"
        | _ => JVal.jnull
      pure e3

/-- Envelope probing of `idosell_order_webhook`: the four accepted payload
shapes, tried as an `if`/`elif` chain.  A non-dict first element of a
matched `orders`/`Results` list ends the chain without an order. -/
def probeOrder (payload : JVal) : Option JVal :=
  match payload with
  | JVal.jobj _ =>
      match oget payload "order" with
      | JVal.jobj fs => some (JVal.jobj fs)
      | _ =>
          match oget payload "orders" with
          | JVal.jarr (first :: _) =>
              (match first with | JVal.jobj fs => some (JVal.jobj fs) | _ => none)
          | _ =>
              match oget payload "Results" with
              | JVal.jarr (first :: _) =>
                  (match first with | JVal.jobj fs => some (JVal.jobj fs) | _ => none)
              | _ =>
                  if hasKey payload "orderId" && hasKey payload "orderSerialNumber" then
                    some payload
                  else none
  | _ => none

/-!
## Audit Log and pipeline state
-/

/-- One row of the `webhook_events` audit table. -/
structure AuditEvent where
  status : String
  message : String
  order_serial : Option String
deriving DecidableEq

/-- Persistent state: the `gift_codes` table (with the id counter of its
primary-key sequence) and the append-only `webhook_events` audit table. -/
structure DBState where
  table : List GiftCode
  nextId : Nat
  events : List AuditEvent
deriving DecidableEq

/-- Configuration of one run: whether the audit insert succeeds (its
failure is swallowed by `log_webhook_event`), and whether the Idosell
client is configured. -/
structure Cfg where
  auditOk : Bool
  idosellConfigured : Bool

/-- `log_webhook_event`: appends one audit row using its own session;
its own failure never propagates (the state is simply left unchanged). -/
def log_webhook_event (cfg : Cfg) (st : DBState) (status message : String)
    (serial : Option String) : DBState :=
  if cfg.auditOk then { st with events := st.events ++ [⟨status, message, serial⟩] } else st

/-- One entry of `assigned_codes` (`{"code": ..., "value": ...}`). -/
structure Assigned where
  code : String
  value : Int
deriving DecidableEq

/-- The webhook's terminal outcome, as surfaced to the caller. -/
inductive Resp where
  | badRequest
  | ignoredUnpaid
  | ignoredNoGiftcards
  | error500 (value : Int)
  | processed (assigned : List Assigned)
  | uncaught (e : PyErr)
deriving DecidableEq

/-- A recorded attempt to call the e-mail helper (keyword names of the
call site; the values do not matter for binding). -/
structure EmailAttempt where
  kwargs : List String
deriving DecidableEq

/-- A recorded attempt to call a method of the Idosell client. -/
structure NoteAttempt where
  method : String
deriving DecidableEq

/-- Result of one webhook invocation: final state, response, and the
external calls that were attempted. -/
structure RunOut where
  state : DBState
  resp : Resp
  emails : List EmailAttempt
  notes : List NoteAttempt
deriving DecidableEq

/-- The inner `for _ in range(remaining)` loop: allocate `n` codes of
denomination `v` for order key `s` on the session's working table. -/
def allocN (v : Int) (s : String) : Nat → List GiftCode → Option (List GiftCode × List Assigned)
  | 0, tbl => some (tbl, [])
  | n + 1, tbl =>
      match assign_unused_gift_code tbl v s with
      | none => none
      | some (gc, tbl') =>
          match allocN v s n tbl' with
          | none => none
          | some (tbl'', rest) => some (tbl'', ⟨gc.code, gc.value⟩ :: rest)

/-- The per-position allocation loop of `idosell_order_webhook`
(step 3): count the codes already assigned to `(order, value)`, allocate
only the shortfall, fail with the exhausted denomination otherwise. -/
def allocLoop (s : String) : List Pos → List GiftCode → Except Int (List GiftCode × List Assigned)
  | [], tbl => .ok (tbl, [])
  | p :: ps, tbl =>
      let existing : Int := countAssigned tbl s p.value
      let remaining := p.quantity - existing
      if remaining ≤ 0 then allocLoop s ps tbl
      else
        match allocN p.value s remaining.toNat tbl with
        | none => .error p.value
        | some (tbl', newAssigned) =>
            match allocLoop s ps tbl' with
            | .error v => .error v
            | .ok (tbl'', rest) => .ok (tbl'', newAssigned ++ rest)

/-- Parameter names of `email_utils.send_giftcard_email`
(`to_email`, `order_id`, `codes`, `pdf_files`; none has a default). -/
def send_giftcard_email_params : List String :=
  ["to_email", "order_id", "codes", "pdf_files"]

/-- Keyword names used by `idosell_order_webhook` when calling
`send_giftcard_email`. -/
def webhook_email_kwargs : List String :=
  ["to_email", "codes", "order_serial_number"]

/-- Whether a keyword-only call binds against a parameter list in which
every parameter is required: every keyword must name a parameter and
every parameter must be supplied, otherwise Python raises `TypeError`. -/
def kwargsBindOk (params kwargs : List String) : Bool :=
  kwargs.all (fun k => params.contains k) && params.all (fun p => kwargs.contains p)

/-- The methods defined on `idosell_client.IdosellClient`. -/
def idosellClientMethods : List String :=
  ["_get_client", "get_order_note", "set_order_note", "append_order_note_with_voucher"]

/-- Note text composed by `IdosellClient.append_order_note_with_voucher`
from the existing note and the freshly built voucher block: appended
after a separator when an existing note is present. -/
def append_order_note_with_voucher_note (existing voucher_block : String) : String :=
  if pyStrip existing ≠ "" then pyRStrip existing ++ "\n\n---\n" ++ voucher_block
  else voucher_block

/-!
## Fulfillment Orchestrator (`idosell_order_webhook`)

The session's transaction is modelled by running the allocation loop on a
working copy of the table and committing it (or discarding it on
rollback); `log_webhook_event` uses its own session and is therefore not
rolled back.  The pool-exhausted branch logs once, raises an
`HTTPException`, and that exception is re-caught by the surrounding
generic `except Exception` clause which rolls back (a no-op at that
point) and logs a second time before re-raising.

The e-mail step calls `send_giftcard_email` with keyword arguments
`to_email`, `codes`, `order_serial_number`; the note step calls the
method `update_order_note` on the Idosell client.  Both calls are
recorded as attempts; whether they can even bind/resolve is settled
separately (`kwargsBindOk`, `idosellClientMethods`).  Both call sites
swallow their exceptions, so neither affects the outcome.
-/

/-- One invocation of `idosell_order_webhook` on payload `payload` in
state `st`. -/
def idosell_order_webhook (cfg : Cfg) (payload : JVal) (st : DBState) : RunOut :=
  match probeOrder payload with
  | none =>
      { state := log_webhook_event cfg st "bad_request"
          "Webhook /webhook/order: brak lub nieprawidłowa sekcja 'order'." none,
        resp := .badRequest, emails := [], notes := [] }
  | some order =>
      let order_serial := oget order "orderSerialNumber"
      let serialOpt : Option String :=
        match order_serial with
        | JVal.jnull => none
        | v => some (pyStr v)
      match find_client_email order with
      | .error e => { state := st, resp := .uncaught e, emails := [], notes := [] }
      | .ok client_email =>
          match is_order_paid order with
          | .error e => { state := st, resp := .uncaught e, emails := [], notes := [] }
          | .ok paid =>
              if !paid then
                { state := log_webhook_event cfg st "ignored_unpaid"
                    "Zamówienie nie jest opłacone – ignoruję webhook." serialOpt,
                  resp := .ignoredUnpaid, emails := [], notes := [] }
              else
                match extract_giftcard_positions order with
                | .error e => { state := st, resp := .uncaught e, emails := [], notes := [] }
                | .ok gift_positions =>
                    if gift_positions.isEmpty then
                      { state := log_webhook_event cfg st "ignored_no_giftcards"
                          "Opłacone zamówienie nie zawiera kart podarunkowych – ignoruję." serialOpt,
                        resp := .ignoredNoGiftcards, emails := [], notes := [] }
                    else
                      let order_serial_str := pyStr order_serial
                      match allocLoop order_serial_str gift_positions st.table with
                      | .error v =>
                          let st1 := log_webhook_event cfg st "error"
                            ("Brak kodów dla nominału " ++ toString v) (some order_serial_str)
                          let st2 := log_webhook_event cfg st1 "error"
                            ("Błąd przydzielania kodów: 500: Brak kodów dla nominału " ++ toString v)
                            serialOpt
                          { state := st2, resp := .error500 v, emails := [], notes := [] }
                      | .ok (tbl', assigned) =>
                          let st1 := { st with table := tbl' }
                          let emails :=
                            if truthy client_email && !assigned.isEmpty then
                              [EmailAttempt.mk webhook_email_kwargs]
                            else []
                          let notes :=
                            if !assigned.isEmpty && truthy order_serial && cfg.idosellConfigured then
                              [NoteAttempt.mk "update_order_note"]
                            else []
                          let st2 := log_webhook_event cfg st1 "processed"
                            ("Przydzielono " ++ toString assigned.length ++ " nowych kodów.") serialOpt
                          { state := st2, resp := .processed assigned, emails := emails, notes := notes }

/-!
## Administrative endpoints (`admin_add_codes`, `admin_manual_issue`)
-/

/-- Result of `admin_add_codes`. -/
inductive AdminAddResp where
  | badRequest
  | okAdded (added : Nat)
  | dbError
deriving DecidableEq

/-- Parsing of the `codes` field: a string is split into stripped
non-empty lines, a list is mapped through `str` and stripped, anything
else yields no codes. -/
def parseCodesPayload : JVal → List String
  | JVal.jstr s => ((splitNl s.data).map (fun cs => pyStrip (String.mk cs))).filter (fun c => c ≠ "")
  | JVal.jarr xs => (xs.map (fun c => pyStrip (pyStr c))).filter (fun c => c ≠ "")
  | _ => []

/-- `code` carries a UNIQUE constraint (`database/models.py`), so this
insert raises `IntegrityError` when the code already exists. -/
def hasCode (tbl : List GiftCode) (c : String) : Bool :=
  tbl.any (fun gc => gc.code == c)

/-- The insert loop of `admin_add_codes`: inserts the codes one by one
with fresh ids; the first duplicate aborts the whole transaction. -/
def insertCodes (v : Int) : List String → List GiftCode → Nat → Option (List GiftCode × Nat)
  | [], tbl, nid => some (tbl, nid)
  | c :: cs, tbl, nid =>
      if hasCode tbl c then none
      else insertCodes v cs (tbl ++ [⟨nid, c, v, none⟩]) (nid + 1)

/-- `admin_add_codes`: add a batch of new codes of one denomination.
On a duplicate the `SQLAlchemyError` handler rolls the transaction back
and answers HTTP 500, so none of the batch is inserted. -/
def admin_add_codes (value : Int) (codesRaw : JVal) (st : DBState) : DBState × AdminAddResp :=
  let codes := parseCodesPayload codesRaw
  if codes.isEmpty then (st, .badRequest)
  else
    match insertCodes value codes st.table st.nextId with
    | none => (st, .dbError)
    | some (tbl', nid') => ({ st with table := tbl', nextId := nid' }, .okAdded codes.length)

/-- Result of `admin_manual_issue`. -/
inductive ManualResp where
  | badRequest
  | reused (code : String) (value : Int)
  | issued (code : String) (value : Int)
  | noCodes
deriving DecidableEq

/-- `SELECT id, code, value, order_id FROM gift_codes WHERE order_id =
:order_id ORDER BY id ASC LIMIT 1`. -/
def findAssignedTo (tbl : List GiftCode) (s : String) : Option GiftCode :=
  (tbl.filter (fun gc => gc.order_id == some s)).argmin GiftCode.id

/-- `admin_manual_issue`: reuse any code already assigned to the order,
otherwise assign the first free code of the denomination; on success the
Idosell note update is attempted (`update_order_note`) and an audit row
is written. -/
def admin_manual_issue (cfg : Cfg) (value : Int) (order_serial : JVal) (st : DBState) :
    DBState × ManualResp × List NoteAttempt :=
  match order_serial with
  | JVal.jnull => (st, .badRequest, [])
  | v =>
      let s := pyStrip (pyStr v)
      if s = "" then (st, .badRequest, [])
      else
        match findAssignedTo st.table s with
        | some gc => (st, .reused gc.code gc.value, [])
        | none =>
            match assign_unused_gift_code st.table value s with
            | none => (st, .noCodes, [])
            | some (gc, tbl') =>
                let st1 := { st with table := tbl' }
                let notes :=
                  if cfg.idosellConfigured then [NoteAttempt.mk "update_order_note"] else []
                let st2 := log_webhook_event cfg st1 "admin_manual_issue"
                  ("Ręczne przypisanie kodu: " ++ gc.code) (some s)
                (st2, .issued gc.code gc.value, notes)

/-!
## The core's state-changing operations, for the immutability invariant
-/

/-- An operation of the core that can touch the `gift_codes` table. -/
inductive Op where
  | webhook (cfg : Cfg) (payload : JVal)
  | adminAdd (value : Int) (codesRaw : JVal)
  | manualIssue (cfg : Cfg) (value : Int) (orderSerial : JVal)

/-- State transition of an operation. -/
def applyOp (st : DBState) : Op → DBState
  | .webhook cfg p => (idosell_order_webhook cfg p st).state
  | .adminAdd v c => (admin_add_codes v c st).1
  | .manualIssue cfg v s => (admin_manual_issue cfg v s st).1

/-!
## Interleaving model of `assign_unused_gift_code`

The claim operation is two SQL statements: a SELECT of a candidate id
and an unconditional UPDATE of that id.  Two concurrent requests are two
such processes over a shared table; a schedule lists whose statement
runs next.
-/

/-- Progress of one allocation request: `sel` is the recorded result of
its SELECT once that statement has run, `claimed` the id written by its
UPDATE. -/
structure ProcState where
  sel : Option (Option Nat)
  claimed : Option Nat
deriving DecidableEq

/-- Execute the next pending statement of one request (SELECT first,
then — if a row was found — the unconditional UPDATE). -/
def procStep (v : Int) (s : String) (tbl : List GiftCode) (p : ProcState) :
    List GiftCode × ProcState :=
  match p.sel with
  | none => (tbl, { p with sel := some (selectFirstUnused tbl v) })
  | some none => (tbl, p)
  | some (some gid) =>
      match p.claimed with
      | some _ => (tbl, p)
      | none => (updateOrderId tbl gid s, { p with claimed := some gid })

/-- Two racing allocation requests over one shared table. -/
structure TwoProc where
  tbl : List GiftCode
  pA : ProcState
  pB : ProcState
deriving DecidableEq

/-- Run a schedule (`true` = request A's next statement, `false` =
request B's). -/
def runSched (v : Int) (sA sB : String) : List Bool → TwoProc → TwoProc
  | [], w => w
  | true :: rest, w =>
      let r := procStep v sA w.tbl w.pA
      runSched v sA sB rest { w with tbl := r.1, pA := r.2 }
  | false :: rest, w =>
      let r := procStep v sB w.tbl w.pB
      runSched v sA sB rest { w with tbl := r.1, pB := r.2 }

/-- A request that has not yet executed any statement. -/
def freshProc : ProcState := ⟨none, none⟩

/-!
## Derived definitions and concrete scenarios used by the theorems
-/

/-- `serialOpt` as computed inside the handler for audit rows. -/
def serialOptOf (order : JVal) : Option String :=
  match oget order "orderSerialNumber" with
  | JVal.jnull => none
  | v => some (pyStr v)

/-- A paid order for two 200 zł gift cards, serial number 500, with a
customer e-mail present. -/
def scenItem200 : JVal :=
  jobj [("productId", jint 14409), ("sizePanelName", jstr "200 zł"), ("productQuantity", jint 2)]

def scenOrder200 : JVal :=
  jobj [("orderId", jstr "A1"), ("orderSerialNumber", jint 500),
        ("client", jobj [("contact", jobj [("email", jstr "x@y.z")])]),
        ("orderDetails", jobj [("prepaids", jarr [jobj [("paymentStatus", jstr "y")]]),
                               ("productsResults", jarr [scenItem200])])]

def scenPayload200 : JVal := jobj [("order", scenOrder200)]

/-- A pool holding exactly two unused 200 zł codes. -/
def scenPool2 : DBState := ⟨[⟨1, "W1", 200, none⟩, ⟨2, "W2", 200, none⟩], 3, []⟩

/-- A paid order asking for two 200 zł codes while the pool holds only
one unused 200 zł code. -/
def scenPool1 : DBState := ⟨[⟨1, "W1", 200, none⟩], 2, []⟩

/-- Number of audit rows actually written by one webhook invocation,
by terminal outcome: one for bad-request, ignored-unpaid,
no-gift-lines and success; two for pool exhaustion (the specific
pool-exhaustion record plus the generic exception-handler record that
re-catches the deliberately raised HTTP error); none when an uncaught
classification exception escapes the handler. -/
def auditCount : Resp → Nat
  | .badRequest => 1
  | .ignoredUnpaid => 1
  | .ignoredNoGiftcards => 1
  | .error500 _ => 2
  | .processed _ => 1
  | .uncaught _ => 0

/-- A pool in which code `U1` is already assigned to order `7` and one
200 zł code is free. -/
def scenPoolAssigned : DBState :=
  ⟨[⟨1, "U1", 100, some "7"⟩, ⟨2, "W1", 200, none⟩, ⟨3, "W2", 200, none⟩], 4, []⟩

/-- A pool of two unused 100 zł codes used by the racing-allocation
executions. -/
def racePool : List GiftCode := [⟨1, "K1", 100, none⟩, ⟨2, "K2", 100, none⟩]

/-- A pool already containing code `A` of denomination 100. -/
def dupPool : DBState := ⟨[⟨1, "A", 100, none⟩], 2, []⟩

/-- A gift-card line whose quantity field holds the non-numeric string
`"x"`. -/
def orderBadQty : JVal :=
  jobj [("orderDetails", jobj [("productsResults",
    jarr [jobj [("productId", jint 14409), ("sizePanelName", jstr "100 zł"),
                ("productQuantity", jstr "x")]])])]

/-- A gift-card line whose quantity field holds the string `"0"`
(truthy, so it does not fall back to the default 1). -/
def orderZeroQty : JVal :=
  jobj [("orderDetails", jobj [("productsResults",
    jarr [jobj [("productId", jint 14409), ("sizePanelName", jstr "100 zł"),
                ("productQuantity", jstr "0")]])])]

/-- A paid gift-card order carrying no `orderSerialNumber` field at all. -/
def scenOrderNoSerial : JVal :=
  jobj [("orderId", jstr "B1"),
        ("orderDetails", jobj [("prepaids", jarr [jobj [("paymentStatus", jstr "y")]]),
                               ("productsResults",
                                jarr [jobj [("productId", jint 14409),
                                            ("sizePanelName", jstr "100 zł")]])])]

def scenPayloadNoSerial : JVal := jobj [("order", scenOrderNoSerial)]

/-- A pool with one unused 100 zł code, for the missing-serial scenario. -/
def scenPoolNoSerial : DBState := ⟨[⟨1, "K1", 100, none⟩], 2, []⟩

/-!
## Lemmas about the table primitives
-/

/-- Pointwise evolution of the table under allocations keyed by `key`:
every row is either untouched, or was unassigned and received `key`. -/
def TableEvolves (key : String) (t t' : List GiftCode) : Prop :=
  t.length = t'.length ∧
  ∀ (i : Nat) (gc : GiftCode), t[i]? = some gc →
    t'[i]? = some gc ∨
      (gc.order_id = none ∧ t'[i]? = some { gc with order_id := some key })

theorem tableEvolves_refl (key : String) (t : List GiftCode) : TableEvolves key t t :=
  ⟨rfl, fun _ _ h => Or.inl h⟩

theorem tableEvolves_trans {key : String} {t t' t'' : List GiftCode}
    (h1 : TableEvolves key t t') (h2 : TableEvolves key t' t'') :
    TableEvolves key t t'' := by
  refine ⟨h1.1.trans h2.1, fun i gc hi => ?_⟩
  rcases h1.2 i gc hi with h | ⟨hn, h⟩
  · exact h2.2 i gc h
  · rcases h2.2 i _ h with h' | ⟨hn', _⟩
    · exact Or.inr ⟨hn, h'⟩
    · simp at hn'

theorem tableEvolves_preserves_assigned {key : String} {t t' : List GiftCode}
    (h : TableEvolves key t t') {i : Nat} {gc : GiftCode} {o : String}
    (hi : t[i]? = some gc) (ho : gc.order_id = some o) : t'[i]? = some gc := by
  rcases h.2 i gc hi with h' | ⟨hn, _⟩
  · exact h'
  · rw [ho] at hn; cases hn

theorem selectFirstUnused_spec {tbl : List GiftCode} {v : Int} {gid : Nat}
    (h : selectFirstUnused tbl v = some gid) :
    ∃ gc ∈ tbl, gc.id = gid ∧ gc.order_id = none ∧ gc.value = v := by
  unfold selectFirstUnused at h
  cases ha : (tbl.filter (fun gc => decide (gc.order_id = none ∧ gc.value = v))).argmin GiftCode.id with
  | none => rw [ha] at h; cases h
  | some gc =>
      rw [ha] at h
      have hmem : gc ∈ tbl.filter (fun gc => decide (gc.order_id = none ∧ gc.value = v)) :=
        List.argmin_mem ha
      rw [List.mem_filter] at hmem
      simp only [Option.map_some', Option.some.injEq] at h
      obtain ⟨h1, h2⟩ := hmem
      simp only [decide_eq_true_eq] at h2
      exact ⟨gc, h1, h, h2.1, h2.2⟩

theorem updateOrderId_length (tbl : List GiftCode) (gid : Nat) (s : String) :
    (updateOrderId tbl gid s).length = tbl.length := by
  simp [updateOrderId]

theorem updateOrderId_map_id (tbl : List GiftCode) (gid : Nat) (s : String) :
    (updateOrderId tbl gid s).map GiftCode.id = tbl.map GiftCode.id := by
  unfold updateOrderId
  rw [List.map_map]
  apply List.map_congr_left
  intro gc _
  by_cases h : gc.id = gid <;> simp [h]

theorem updateOrderId_getElem? (tbl : List GiftCode) (gid : Nat) (s : String) (i : Nat) :
    (updateOrderId tbl gid s)[i]? =
      tbl[i]?.map (fun gc => if gc.id = gid then { gc with order_id := some s } else gc) := by
  simp [updateOrderId]

theorem updateOrderId_eq_self (s : String) {tbl : List GiftCode} {gid : Nat}
    (h : ∀ gc ∈ tbl, gc.id ≠ gid) : updateOrderId tbl gid s = tbl := by
  induction tbl with
  | nil => rfl
  | cons x rest ih =>
      have hx : x.id ≠ gid := h x (List.mem_cons_self _ _)
      have hr := ih (fun gc hgc => h gc (List.mem_cons_of_mem _ hgc))
      simp only [updateOrderId, List.map_cons, if_neg hx] at *
      rw [hr]

theorem mem_updateOrderId_of_id {tbl : List GiftCode} {gid : Nat} {s : String} {gc : GiftCode}
    (h : gc ∈ updateOrderId tbl gid s) (hid : gc.id = gid) : gc.order_id = some s := by
  unfold updateOrderId at h
  rw [List.mem_map] at h
  obtain ⟨x, _, hx⟩ := h
  by_cases hxi : x.id = gid
  · rw [if_pos hxi] at hx; rw [← hx]
  · rw [if_neg hxi] at hx; rw [← hx] at hid; exact absurd hid hxi

theorem row_unique {tbl : List GiftCode} (hnodup : (tbl.map GiftCode.id).Nodup)
    {a b : GiftCode} (ha : a ∈ tbl) (hb : b ∈ tbl) (hid : a.id = b.id) : a = b :=
  List.inj_on_of_nodup_map hnodup ha hb hid

theorem getById_update {tbl : List GiftCode} (hnodup : (tbl.map GiftCode.id).Nodup)
    {gc : GiftCode} (hmem : gc ∈ tbl) {gid : Nat} (hid : gc.id = gid) (s : String) :
    getById (updateOrderId tbl gid s) gid = some { gc with order_id := some s } := by
  unfold getById updateOrderId
  rw [List.find?_map]
  have hpred : ((fun x => x.id == gid) ∘
      fun x => if x.id = gid then { x with order_id := some s } else x) =
      (fun (x : GiftCode) => x.id == gid) := by
    funext x
    by_cases h : x.id = gid <;> simp [h]
  rw [hpred]
  cases hf : tbl.find? (fun x => x.id == gid) with
  | none =>
      rw [List.find?_eq_none] at hf
      exact absurd (by simpa using hid) (by simpa using hf gc hmem)
  | some y =>
      have hy : y = gc := by
        apply row_unique hnodup (List.mem_of_find?_eq_some hf) hmem
        have := List.find?_some hf
        simp only [beq_iff_eq] at this
        rw [this, hid]
      subst hy
      simp [hid]

theorem countAssigned_update {tbl : List GiftCode} (hnodup : (tbl.map GiftCode.id).Nodup)
    {gc : GiftCode} (hmem : gc ∈ tbl) {gid : Nat} (hid : gc.id = gid)
    (hun : gc.order_id = none) {v : Int} (hv : gc.value = v) (s : String) (s' : String) (v' : Int) :
    countAssigned (updateOrderId tbl gid s) s' v' =
      countAssigned tbl s' v' + (if s' = s ∧ v' = v then 1 else 0) := by
  induction tbl with
  | nil => cases hmem
  | cons x rest ih =>
      rw [List.map_cons, List.nodup_cons] at hnodup
      have hnodup' := hnodup.2
      have hnotin := hnodup.1
      rcases List.mem_cons.mp hmem with hgx | hgr
      · subst hgx
        have hrest : ∀ g ∈ rest, g.id ≠ gid := by
          intro g hg hgi
          exact hnotin (hid ▸ hgi ▸ List.mem_map_of_mem GiftCode.id hg)
        have hself := updateOrderId_eq_self s hrest
        simp only [updateOrderId, List.map_cons, if_pos hid]
        simp only [updateOrderId] at hself
        rw [hself]
        simp only [countAssigned, List.countP_cons]
        have hx : decide (gc.order_id = some s' ∧ gc.value = v') = false := by
          simp [hun]
        rw [hx]
        by_cases hc : s' = s ∧ v' = v
        · obtain ⟨h1, h2⟩ := hc
          subst h1; subst h2
          have hup : decide ((some s' : Option String) = some s' ∧ gc.value = v') = true := by
            simp [hv]
          rw [hup]
          simp
        · have hup : decide ((some s : Option String) = some s' ∧ gc.value = v') = false := by
            rw [decide_eq_false_iff_not]
            rintro ⟨hss, hvv⟩
            have hv2 : v' = v := by rw [← hv, hvv]
            exact hc ⟨(Option.some.inj hss).symm, hv2⟩
          rw [hup, if_neg hc]
          simp
      · have hxid : x.id ≠ gid := by
          intro hxi
          apply hnotin
          rw [hxi, ← hid]
          exact List.mem_map_of_mem GiftCode.id hgr
        have hrec := ih hnodup' hgr
        simp only [updateOrderId, List.map_cons, if_neg hxid]
        simp only [countAssigned, updateOrderId, List.countP_cons] at hrec ⊢
        omega

theorem assign_spec {tbl : List GiftCode} (hnodup : (tbl.map GiftCode.id).Nodup)
    {v : Int} {s : String} {gc : GiftCode} {tbl' : List GiftCode}
    (h : assign_unused_gift_code tbl v s = some (gc, tbl')) :
    ∃ gc0 ∈ tbl, gc0.order_id = none ∧ gc0.value = v ∧
      gc = { gc0 with order_id := some s } ∧ tbl' = updateOrderId tbl gc0.id s := by
  unfold assign_unused_gift_code at h
  cases hsel : selectFirstUnused tbl v with
  | none => rw [hsel] at h; cases h
  | some gid =>
      rw [hsel] at h
      obtain ⟨gc0, hmem, hid, hun, hv⟩ := selectFirstUnused_spec hsel
      have hget := getById_update hnodup hmem hid s
      simp only [hget] at h
      obtain ⟨h1, h2⟩ := Prod.mk.injEq .. ▸ (Option.some.inj h)
      exact ⟨gc0, hmem, hun, hv, h1.symm, by rw [← h2, hid]⟩

theorem assign_map_id {tbl : List GiftCode} {v : Int} {s : String} {gc : GiftCode}
    {tbl' : List GiftCode} (hnodup : (tbl.map GiftCode.id).Nodup)
    (h : assign_unused_gift_code tbl v s = some (gc, tbl')) :
    tbl'.map GiftCode.id = tbl.map GiftCode.id := by
  obtain ⟨gc0, _, _, _, _, htbl⟩ := assign_spec hnodup h
  rw [htbl, updateOrderId_map_id]

theorem assign_count {tbl : List GiftCode} (hnodup : (tbl.map GiftCode.id).Nodup)
    {v : Int} {s : String} {gc : GiftCode} {tbl' : List GiftCode}
    (h : assign_unused_gift_code tbl v s = some (gc, tbl')) (s' : String) (v' : Int) :
    countAssigned tbl' s' v' = countAssigned tbl s' v' + (if s' = s ∧ v' = v then 1 else 0) := by
  obtain ⟨gc0, hmem, hun, hv, _, htbl⟩ := assign_spec hnodup h
  rw [htbl]
  exact countAssigned_update hnodup hmem rfl hun hv s s' v'

theorem assign_evolves {tbl : List GiftCode} (hnodup : (tbl.map GiftCode.id).Nodup)
    {v : Int} {s : String} {gc : GiftCode} {tbl' : List GiftCode}
    (h : assign_unused_gift_code tbl v s = some (gc, tbl')) :
    TableEvolves s tbl tbl' := by
  obtain ⟨gc0, hmem, hun, _, _, htbl⟩ := assign_spec hnodup h
  subst htbl
  constructor
  · rw [updateOrderId_length]
  · intro i gci hi
    rw [updateOrderId_getElem?, hi]
    by_cases hident : gci.id = gc0.id
    · have hmemi : gci ∈ tbl := List.getElem?_mem hi
      have : gci = gc0 := row_unique hnodup hmemi hmem hident
      subst this
      right
      exact ⟨hun, by simp [hident]⟩
    · left
      simp [hident]

theorem assign_fields {tbl : List GiftCode} (hnodup : (tbl.map GiftCode.id).Nodup)
    {v : Int} {s : String} {gc : GiftCode} {tbl' : List GiftCode}
    (h : assign_unused_gift_code tbl v s = some (gc, tbl')) :
    gc.order_id = some s ∧ gc.value = v := by
  obtain ⟨gc0, _, _, hv, hgc, _⟩ := assign_spec hnodup h
  subst hgc
  exact ⟨rfl, hv⟩

theorem allocN_spec {v : Int} {s : String} :
    ∀ {n : Nat} {tbl tbl' : List GiftCode} {acc : List Assigned},
      (tbl.map GiftCode.id).Nodup →
      allocN v s n tbl = some (tbl', acc) →
      tbl'.map GiftCode.id = tbl.map GiftCode.id ∧
      TableEvolves s tbl tbl' ∧
      acc.length = n ∧
      ∀ s' v', countAssigned tbl' s' v' =
        countAssigned tbl s' v' + (if s' = s ∧ v' = v then n else 0) := by
  intro n
  induction n with
  | zero =>
      intro tbl tbl' acc _ h
      simp only [allocN, Option.some.injEq] at h
      obtain ⟨h1, h2⟩ := Prod.mk.injEq .. ▸ h
      subst h1; subst h2
      exact ⟨rfl, tableEvolves_refl s tbl, rfl, fun s' v' => by simp⟩
  | succ m ih =>
      intro tbl tbl' acc hnodup h
      simp only [allocN] at h
      cases ha : assign_unused_gift_code tbl v s with
      | none => rw [ha] at h; cases h
      | some pr =>
          obtain ⟨gc, tbl1⟩ := pr
          rw [ha] at h
          dsimp only at h
          cases hr : allocN v s m tbl1 with
          | none => rw [hr] at h; cases h
          | some pr2 =>
              obtain ⟨tbl2, rest⟩ := pr2
              rw [hr] at h
              dsimp only at h
              simp only [Option.some.injEq] at h
              obtain ⟨h1, h2⟩ := Prod.mk.injEq .. ▸ h
              subst h1; subst h2
              have hmap1 := assign_map_id hnodup ha
              have hnodup1 : (tbl1.map GiftCode.id).Nodup := by rw [hmap1]; exact hnodup
              obtain ⟨hmap2, hev2, hlen2, hcnt2⟩ := ih hnodup1 hr
              refine ⟨hmap2.trans hmap1,
                tableEvolves_trans (assign_evolves hnodup ha) hev2, by simp [hlen2], ?_⟩
              intro s' v'
              rw [hcnt2 s' v', assign_count hnodup ha s' v']
              by_cases hc : s' = s ∧ v' = v
              · simp only [if_pos hc]
                try omega
              · simp only [if_neg hc]
                try omega

theorem allocLoop_spec {s : String} :
    ∀ {ps : List Pos} {tbl tbl' : List GiftCode} {assigned : List Assigned},
      (tbl.map GiftCode.id).Nodup →
      ps.Pairwise (fun a b => a.value ≠ b.value) →
      allocLoop s ps tbl = .ok (tbl', assigned) →
      tbl'.map GiftCode.id = tbl.map GiftCode.id ∧
      TableEvolves s tbl tbl' ∧
      (∀ p ∈ ps, (countAssigned tbl' s p.value : Int) =
        max (countAssigned tbl s p.value : Int) p.quantity) ∧
      (∀ (s' : String) (v' : Int), (s' ≠ s ∨ ∀ p ∈ ps, p.value ≠ v') →
        countAssigned tbl' s' v' = countAssigned tbl s' v') := by
  intro ps
  induction ps with
  | nil =>
      intro tbl tbl' assigned _ _ h
      simp only [allocLoop, Except.ok.injEq] at h
      obtain ⟨h1, h2⟩ := Prod.mk.injEq .. ▸ h
      subst h1
      exact ⟨rfl, tableEvolves_refl s tbl, by simp, fun _ _ _ => rfl⟩
  | cons p ps ih =>
      intro tbl tbl' assigned hnodup hdist h
      have hdhead : ∀ p' ∈ ps, p.value ≠ p'.value :=
        fun p' hp' => List.rel_of_pairwise_cons hdist hp'
      have hdtail : ps.Pairwise (fun a b => a.value ≠ b.value) := hdist.of_cons
      simp only [allocLoop] at h
      by_cases hr : p.quantity - (countAssigned tbl s p.value : Int) ≤ 0
      · rw [if_pos hr] at h
        obtain ⟨hmap, hev, hcnt, hunt⟩ := ih hnodup hdtail h
        refine ⟨hmap, hev, ?_, ?_⟩
        · intro p' hp'
          rcases List.mem_cons.mp hp' with hph | hpt
          · subst hph
            have : countAssigned tbl' s p'.value = countAssigned tbl s p'.value := by
              apply hunt
              right
              intro p2 hp2
              intro hvv
              exact hdhead p2 hp2 hvv.symm
            rw [this]
            exact (max_eq_left (by omega)).symm
          · exact hcnt p' hpt
        · intro s' v' hcond
          apply hunt
          rcases hcond with hs | hv
          · exact Or.inl hs
          · exact Or.inr (fun p2 hp2 => hv p2 (List.mem_cons_of_mem _ hp2))
      · rw [if_neg hr] at h
        cases hn : allocN p.value s (p.quantity - (countAssigned tbl s p.value : Int)).toNat tbl with
        | none => rw [hn] at h; cases h
        | some pr =>
            obtain ⟨tbl1, newA⟩ := pr
            rw [hn] at h
            dsimp only at h
            cases hl : allocLoop s ps tbl1 with
            | error v => rw [hl] at h; cases h
            | ok pr2 =>
                obtain ⟨tbl2, rest⟩ := pr2
                rw [hl] at h
                dsimp only at h
                simp only [Except.ok.injEq] at h
                obtain ⟨h1, h2⟩ := Prod.mk.injEq .. ▸ h
                subst h1; subst h2
                obtain ⟨hmap1, hev1, _, hcnt1⟩ := allocN_spec hnodup hn
                have hnodup1 : (tbl1.map GiftCode.id).Nodup := by rw [hmap1]; exact hnodup
                obtain ⟨hmap2, hev2, hcnt2, hunt2⟩ := ih hnodup1 hdtail hl
                have hq : (countAssigned tbl s p.value : Int) < p.quantity := by omega
                have hhead1 : (countAssigned tbl1 s p.value : Int) = p.quantity := by
                  rw [hcnt1 s p.value]
                  have htriv : s = s ∧ p.value = p.value := ⟨rfl, rfl⟩
                  rw [if_pos htriv]
                  omega
                refine ⟨hmap2.trans hmap1, tableEvolves_trans hev1 hev2, ?_, ?_⟩
                · intro p' hp'
                  rcases List.mem_cons.mp hp' with hph | hpt
                  · subst hph
                    have huntd : countAssigned tbl2 s p'.value = countAssigned tbl1 s p'.value := by
                      apply hunt2
                      right
                      intro p2 hp2 hvv
                      exact hdhead p2 hp2 hvv.symm
                    rw [huntd, hhead1]
                    exact (max_eq_right (le_of_lt hq)).symm
                  · have hstep : countAssigned tbl1 s p'.value = countAssigned tbl s p'.value := by
                      rw [hcnt1 s p'.value]
                      have : ¬(s = s ∧ p'.value = p.value) := by
                        rintro ⟨-, hvv⟩
                        exact hdhead p' hpt hvv.symm
                      rw [if_neg this, Nat.add_zero]
                    rw [hcnt2 p' hpt, hstep]
                · intro s' v' hcond
                  have hstep : countAssigned tbl1 s' v' = countAssigned tbl s' v' := by
                    rw [hcnt1 s' v']
                    have : ¬(s' = s ∧ v' = p.value) := by
                      rintro ⟨hs, hvv⟩
                      rcases hcond with hns | hall
                      · exact hns hs
                      · exact hall p (List.mem_cons_self _ _) hvv.symm
                    rw [if_neg this, Nat.add_zero]
                  have htail : countAssigned tbl2 s' v' = countAssigned tbl1 s' v' := by
                    apply hunt2
                    rcases hcond with hs | hv
                    · exact Or.inl hs
                    · exact Or.inr (fun p2 hp2 => hv p2 (List.mem_cons_of_mem _ hp2))
                  rw [htail, hstep]

theorem allocLoop_replay {s : String} :
    ∀ {ps : List Pos} {tbl : List GiftCode},
      (∀ p ∈ ps, p.quantity ≤ (countAssigned tbl s p.value : Int)) →
      allocLoop s ps tbl = .ok (tbl, []) := by
  intro ps
  induction ps with
  | nil => intro tbl _; rfl
  | cons p ps ih =>
      intro tbl hsat
      have hp : p.quantity - (countAssigned tbl s p.value : Int) ≤ 0 := by
        have := hsat p (List.mem_cons_self _ _)
        omega
      simp only [allocLoop, if_pos hp]
      exact ih (fun p' hp' => hsat p' (List.mem_cons_of_mem _ hp'))

theorem run_eq_ok {cfg : Cfg} {payload : JVal} {st : DBState} {ord ce : JVal} {ps : List Pos}
    {tbl' : List GiftCode} {assigned : List Assigned}
    (hprobe : probeOrder payload = some ord)
    (hmail : find_client_email ord = .ok ce)
    (hpaid : is_order_paid ord = .ok true)
    (hpos : extract_giftcard_positions ord = .ok ps) (hne : ps ≠ [])
    (halloc : allocLoop (pyStr (oget ord "orderSerialNumber")) ps st.table = .ok (tbl', assigned)) :
    idosell_order_webhook cfg payload st =
      { state := log_webhook_event cfg { st with table := tbl' } "processed"
          ("Przydzielono " ++ toString assigned.length ++ " nowych kodów.") (serialOptOf ord),
        resp := .processed assigned,
        emails :=
          if truthy ce && !assigned.isEmpty then [EmailAttempt.mk webhook_email_kwargs] else [],
        notes :=
          if !assigned.isEmpty && truthy (oget ord "orderSerialNumber") && cfg.idosellConfigured
          then [NoteAttempt.mk "update_order_note"] else [] } := by
  have hemp : ¬ ps.isEmpty = true := by
    cases hps : ps.isEmpty
    · simp
    · exact absurd (List.isEmpty_iff.mp hps) hne
  unfold idosell_order_webhook
  rw [hprobe]
  dsimp only
  rw [hmail]
  dsimp only
  rw [hpaid]
  dsimp only
  rw [hpos]
  dsimp only
  rw [if_neg hemp]
  rw [halloc]
  rfl

theorem run_eq_err {cfg : Cfg} {payload : JVal} {st : DBState} {ord ce : JVal} {ps : List Pos}
    {v : Int}
    (hprobe : probeOrder payload = some ord)
    (hmail : find_client_email ord = .ok ce)
    (hpaid : is_order_paid ord = .ok true)
    (hpos : extract_giftcard_positions ord = .ok ps) (hne : ps ≠ [])
    (halloc : allocLoop (pyStr (oget ord "orderSerialNumber")) ps st.table = .error v) :
    idosell_order_webhook cfg payload st =
      { state := log_webhook_event cfg
          (log_webhook_event cfg st "error"
            ("Brak kodów dla nominału " ++ toString v)
            (some (pyStr (oget ord "orderSerialNumber"))))
          "error" ("Błąd przydzielania kodów: 500: Brak kodów dla nominału " ++ toString v)
          (serialOptOf ord),
        resp := .error500 v, emails := [], notes := [] } := by
  have hemp : ¬ ps.isEmpty = true := by
    cases hps : ps.isEmpty
    · simp
    · exact absurd (List.isEmpty_iff.mp hps) hne
  unfold idosell_order_webhook
  rw [hprobe]
  dsimp only
  rw [hmail]
  dsimp only
  rw [hpaid]
  dsimp only
  rw [hpos]
  dsimp only
  rw [if_neg hemp]
  rw [halloc]
  rfl

theorem log_webhook_event_table (cfg : Cfg) (st : DBState) (a b : String) (c : Option String) :
    (log_webhook_event cfg st a b c).table = st.table := by
  unfold log_webhook_event
  split <;> rfl

/-- Claim C1: for every order reference, denomination and quantity,
re-running the fulfillment pipeline for the same webhook payload any
number of times (sequentially) leaves exactly `N` codes assigned to the
`(order, denomination)` pair: each run counts the codes already assigned
to that pair, allocates only the shortfall, and allocates zero new codes
when the shortfall is not positive, so every rerun after a successful
first run returns `processed` with an empty list of newly assigned codes
and leaves the table untouched. -/
theorem C1_retry_idempotent_allocation
    (cfg : Cfg) (payload : JVal) (st : DBState) (ord ce : JVal) (ps : List Pos)
    (assigned : List Assigned)
    (hprobe : probeOrder payload = some ord)
    (hmail : find_client_email ord = .ok ce)
    (hpaid : is_order_paid ord = .ok true)
    (hpos : extract_giftcard_positions ord = .ok ps) (hne : ps ≠ [])
    (hdist : ps.Pairwise (fun a b => a.value ≠ b.value))
    (hq : ∀ p ∈ ps, 0 ≤ p.quantity)
    (hnodup : (st.table.map GiftCode.id).Nodup)
    (hfresh : ∀ p ∈ ps,
      countAssigned st.table (pyStr (oget ord "orderSerialNumber")) p.value = 0)
    (hrun : (idosell_order_webhook cfg payload st).resp = .processed assigned) :
    (∀ p ∈ ps, (countAssigned (idosell_order_webhook cfg payload st).state.table
        (pyStr (oget ord "orderSerialNumber")) p.value : Int) = p.quantity) ∧
    ∀ k : Nat,
      ((fun s1 => (idosell_order_webhook cfg payload s1).state)^[k]
          (idosell_order_webhook cfg payload st).state).table =
        (idosell_order_webhook cfg payload st).state.table ∧
      (idosell_order_webhook cfg payload
          ((fun s1 => (idosell_order_webhook cfg payload s1).state)^[k]
            (idosell_order_webhook cfg payload st).state)).resp = .processed [] := by
  cases halloc : allocLoop (pyStr (oget ord "orderSerialNumber")) ps st.table with
  | error v =>
      rw [run_eq_err hprobe hmail hpaid hpos hne halloc] at hrun
      cases hrun
  | ok pr =>
      obtain ⟨tbl', asg⟩ := pr
      have heq := @run_eq_ok cfg payload st ord ce ps tbl' asg hprobe hmail hpaid hpos hne halloc
      have htbl : (idosell_order_webhook cfg payload st).state.table = tbl' := by
        rw [heq]
        exact log_webhook_event_table ..
      obtain ⟨_, _, hcnt, _⟩ := allocLoop_spec hnodup hdist halloc
      have hcume : ∀ p ∈ ps,
          (countAssigned tbl' (pyStr (oget ord "orderSerialNumber")) p.value : Int) =
            p.quantity := by
        intro p hp
        rw [hcnt p hp, hfresh p hp]
        exact max_eq_right (hq p hp)
      have hstep : ∀ st1 : DBState, st1.table = tbl' →
          (idosell_order_webhook cfg payload st1).state.table = tbl' ∧
          (idosell_order_webhook cfg payload st1).resp = .processed [] := by
        intro st1 ht
        have hsat : ∀ p ∈ ps, p.quantity ≤
            (countAssigned st1.table (pyStr (oget ord "orderSerialNumber")) p.value : Int) := by
          intro p hp
          rw [ht, hcume p hp]
        have hre : allocLoop (pyStr (oget ord "orderSerialNumber")) ps st1.table =
            .ok (st1.table, []) := allocLoop_replay hsat
        have heq1 := @run_eq_ok cfg payload st1 ord ce ps st1.table [] hprobe hmail hpaid hpos hne hre
        constructor
        · rw [heq1, log_webhook_event_table]
          exact ht
        · rw [heq1]
      refine ⟨by rw [htbl]; exact hcume, ?_⟩
      intro k
      induction k with
      | zero => exact ⟨rfl, by rw [Function.iterate_zero_apply]; exact (hstep _ htbl).2⟩
      | succ m ihm =>
          have hmt : ((fun s1 => (idosell_order_webhook cfg payload s1).state)^[m]
              (idosell_order_webhook cfg payload st).state).table = tbl' := by
            rw [ihm.1, htbl]
          constructor
          · rw [Function.iterate_succ_apply', htbl]
            exact (hstep _ hmt).1
          · rw [Function.iterate_succ_apply']
            exact (hstep _ (hstep _ hmt).1).2

theorem C1_retry_idempotent_allocation_witness :
    (countAssigned (idosell_order_webhook ⟨true, true⟩ scenPayload200 scenPool2).state.table
        "500" 200 : Int) = 2 ∧
    (idosell_order_webhook ⟨true, true⟩ scenPayload200
        ((fun s1 => (idosell_order_webhook ⟨true, true⟩ scenPayload200 s1).state)^[2]
          (idosell_order_webhook ⟨true, true⟩ scenPayload200 scenPool2).state)).resp =
      .processed [] := by
  have h := C1_retry_idempotent_allocation ⟨true, true⟩ scenPayload200 scenPool2 scenOrder200
      (jstr "x@y.z") [⟨200, 2⟩] [⟨"W1", 200⟩, ⟨"W2", 200⟩] rfl rfl rfl rfl
      (by decide) (by simp) (by decide) (by decide) (by decide) rfl
  refine ⟨?_, (h.2 2).2⟩
  have h1 := h.1 ⟨200, 2⟩ (by simp)
  have hkey : pyStr (oget scenOrder200 "orderSerialNumber") = "500" := rfl
  rw [hkey] at h1
  exact h1

/-- Claim C2: if, during one webhook invocation, some denomination's
allocation finds no unused code, the invocation ends with the table
exactly as it started — every code claimed earlier in the same
invocation's loop, including codes of other denominations, is rolled
back — no e-mail or note update is attempted, and the invocation
surfaces a fatal error (HTTP 500) naming the exhausted denomination. -/
theorem C2_pool_exhaustion_all_or_nothing
    (cfg : Cfg) (payload : JVal) (st : DBState) (ord ce : JVal) (ps : List Pos) (v : Int)
    (hprobe : probeOrder payload = some ord)
    (hmail : find_client_email ord = .ok ce)
    (hpaid : is_order_paid ord = .ok true)
    (hpos : extract_giftcard_positions ord = .ok ps) (hne : ps ≠ [])
    (halloc : allocLoop (pyStr (oget ord "orderSerialNumber")) ps st.table = .error v) :
    (idosell_order_webhook cfg payload st).resp = .error500 v ∧
    (idosell_order_webhook cfg payload st).state.table = st.table ∧
    (idosell_order_webhook cfg payload st).emails = [] ∧
    (idosell_order_webhook cfg payload st).notes = [] := by
  have heq := @run_eq_err cfg payload st ord ce ps v hprobe hmail hpaid hpos hne halloc
  rw [heq]
  refine ⟨rfl, ?_, rfl, rfl⟩
  rw [log_webhook_event_table, log_webhook_event_table]

theorem C2_pool_exhaustion_all_or_nothing_witness :
    (idosell_order_webhook ⟨true, true⟩ scenPayload200 scenPool1).resp = .error500 200 ∧
    (idosell_order_webhook ⟨true, true⟩ scenPayload200 scenPool1).state.table =
      scenPool1.table ∧
    (idosell_order_webhook ⟨true, true⟩ scenPayload200 scenPool1).emails = [] ∧
    (idosell_order_webhook ⟨true, true⟩ scenPayload200 scenPool1).notes = [] :=
  C2_pool_exhaustion_all_or_nothing ⟨true, true⟩ scenPayload200 scenPool1 scenOrder200
    (jstr "x@y.z") [⟨200, 2⟩] 200 rfl rfl rfl rfl (by simp) rfl

/-- Claim C5 (amended): every webhook invocation appends exactly
`auditCount` audit rows — one on the bad-request, ignored-unpaid,
no-gift-lines and success branches, but two on the pool-exhausted
branch — and a failure of audit logging itself never changes the
response or the resulting code table (it only loses the audit rows). -/
theorem C5_amended_audit_rows (ido : Bool) (payload : JVal) (st : DBState) :
    (idosell_order_webhook ⟨true, ido⟩ payload st).state.events.length =
      st.events.length + auditCount (idosell_order_webhook ⟨true, ido⟩ payload st).resp ∧
    (idosell_order_webhook ⟨false, ido⟩ payload st).resp =
      (idosell_order_webhook ⟨true, ido⟩ payload st).resp ∧
    (idosell_order_webhook ⟨false, ido⟩ payload st).state.table =
      (idosell_order_webhook ⟨true, ido⟩ payload st).state.table ∧
    (idosell_order_webhook ⟨false, ido⟩ payload st).state.events = st.events := by
  cases hp : probeOrder payload with
  | none => simp [idosell_order_webhook, hp, log_webhook_event, auditCount]
  | some ord =>
      cases hm : find_client_email ord with
      | error e => simp [idosell_order_webhook, hp, hm, auditCount]
      | ok ce =>
          cases hpd : is_order_paid ord with
          | error e => simp [idosell_order_webhook, hp, hm, hpd, auditCount]
          | ok paid =>
              cases paid with
              | false =>
                  simp [idosell_order_webhook, hp, hm, hpd, log_webhook_event, auditCount]
              | true =>
                  cases hx : extract_giftcard_positions ord with
                  | error e =>
                      simp [idosell_order_webhook, hp, hm, hpd, hx, auditCount]
                  | ok ps =>
                      cases hps : ps.isEmpty with
                      | true =>
                          simp [idosell_order_webhook, hp, hm, hpd, hx, hps,
                                log_webhook_event, auditCount]
                      | false =>
                          cases hal : allocLoop (pyStr (oget ord "orderSerialNumber")) ps st.table with
                          | error v =>
                              simp [idosell_order_webhook, hp, hm, hpd, hx, hps, hal,
                                    log_webhook_event, auditCount]
                          | ok pr =>
                              obtain ⟨tbl', asg⟩ := pr
                              simp [idosell_order_webhook, hp, hm, hpd, hx, hps, hal,
                                    log_webhook_event, auditCount]

theorem C5_counterexample_two_audit_rows :
    (idosell_order_webhook ⟨true, true⟩ scenPayload200 scenPool1).state.events.length =
      scenPool1.events.length + 2 ∧
    (idosell_order_webhook ⟨true, true⟩ scenPayload200 scenPool1).state.events.map
        AuditEvent.status = ["error", "error"] :=
  ⟨rfl, rfl⟩

theorem allocLoop_evolves {s : String} :
    ∀ {ps : List Pos} {tbl tbl' : List GiftCode} {assigned : List Assigned},
      (tbl.map GiftCode.id).Nodup →
      allocLoop s ps tbl = .ok (tbl', assigned) →
      tbl'.map GiftCode.id = tbl.map GiftCode.id ∧ TableEvolves s tbl tbl' := by
  intro ps
  induction ps with
  | nil =>
      intro tbl tbl' assigned _ h
      simp only [allocLoop, Except.ok.injEq] at h
      obtain ⟨h1, _⟩ := Prod.mk.injEq .. ▸ h
      subst h1
      exact ⟨rfl, tableEvolves_refl s tbl⟩
  | cons p ps ih =>
      intro tbl tbl' assigned hnodup h
      simp only [allocLoop] at h
      by_cases hr : p.quantity - (countAssigned tbl s p.value : Int) ≤ 0
      · rw [if_pos hr] at h
        exact ih hnodup h
      · rw [if_neg hr] at h
        cases hn : allocN p.value s (p.quantity - (countAssigned tbl s p.value : Int)).toNat tbl with
        | none => rw [hn] at h; cases h
        | some pr =>
            obtain ⟨tbl1, newA⟩ := pr
            rw [hn] at h
            dsimp only at h
            cases hl : allocLoop s ps tbl1 with
            | error v => rw [hl] at h; cases h
            | ok pr2 =>
                obtain ⟨tbl2, rest⟩ := pr2
                rw [hl] at h
                dsimp only at h
                simp only [Except.ok.injEq] at h
                obtain ⟨h1, _⟩ := Prod.mk.injEq .. ▸ h
                subst h1
                obtain ⟨hmap1, hev1, _, _⟩ := allocN_spec hnodup hn
                have hnodup1 : (tbl1.map GiftCode.id).Nodup := by rw [hmap1]; exact hnodup
                obtain ⟨hmap2, hev2⟩ := ih hnodup1 hl
                exact ⟨hmap2.trans hmap1, tableEvolves_trans hev1 hev2⟩

theorem run_preserves_assigned (cfg : Cfg) (payload : JVal) (st : DBState)
    (hnodup : (st.table.map GiftCode.id).Nodup)
    {i : Nat} {gc : GiftCode} {o : String}
    (hi : st.table[i]? = some gc) (ho : gc.order_id = some o) :
    (idosell_order_webhook cfg payload st).state.table[i]? = some gc := by
  cases hp : probeOrder payload with
  | none => simpa [idosell_order_webhook, hp, log_webhook_event_table] using hi
  | some ord =>
      cases hm : find_client_email ord with
      | error e => simpa [idosell_order_webhook, hp, hm] using hi
      | ok ce =>
          cases hpd : is_order_paid ord with
          | error e => simpa [idosell_order_webhook, hp, hm, hpd] using hi
          | ok paid =>
              cases paid with
              | false =>
                  simpa [idosell_order_webhook, hp, hm, hpd, log_webhook_event_table] using hi
              | true =>
                  cases hx : extract_giftcard_positions ord with
                  | error e => simpa [idosell_order_webhook, hp, hm, hpd, hx] using hi
                  | ok ps =>
                      cases hps : ps.isEmpty with
                      | true =>
                          simpa [idosell_order_webhook, hp, hm, hpd, hx, hps,
                                 log_webhook_event_table] using hi
                      | false =>
                          cases hal : allocLoop (pyStr (oget ord "orderSerialNumber")) ps st.table with
                          | error v =>
                              simpa [idosell_order_webhook, hp, hm, hpd, hx, hps, hal,
                                     log_webhook_event_table] using hi
                          | ok pr =>
                              obtain ⟨tbl', asg⟩ := pr
                              have hev := (allocLoop_evolves hnodup hal).2
                              have := tableEvolves_preserves_assigned hev hi ho
                              simpa [idosell_order_webhook, hp, hm, hpd, hx, hps, hal,
                                     log_webhook_event_table] using this

theorem insertCodes_append {v : Int} :
    ∀ {cs : List String} {tbl : List GiftCode} {nid : Nat} {tbl2 : List GiftCode} {nid2 : Nat},
      insertCodes v cs tbl nid = some (tbl2, nid2) → ∃ rows, tbl2 = tbl ++ rows := by
  intro cs
  induction cs with
  | nil =>
      intro tbl nid tbl2 nid2 h
      simp only [insertCodes, Option.some.injEq] at h
      obtain ⟨h1, _⟩ := Prod.mk.injEq .. ▸ h
      exact ⟨[], by rw [← h1, List.append_nil]⟩
  | cons c cs ih =>
      intro tbl nid tbl2 nid2 h
      simp only [insertCodes] at h
      by_cases hc : hasCode tbl c
      · rw [if_pos hc] at h; cases h
      · rw [if_neg hc] at h
        obtain ⟨rows, hrows⟩ := ih h
        exact ⟨⟨nid, c, v, none⟩ :: rows, by rw [hrows, List.append_assoc]; rfl⟩

theorem admin_add_preserves (value : Int) (codesRaw : JVal) (st : DBState)
    {i : Nat} {gc : GiftCode} (hi : st.table[i]? = some gc) :
    (admin_add_codes value codesRaw st).1.table[i]? = some gc := by
  unfold admin_add_codes
  by_cases he : (parseCodesPayload codesRaw).isEmpty
  · rw [if_pos he]
    exact hi
  · rw [if_neg he]
    cases hins : insertCodes value (parseCodesPayload codesRaw) st.table st.nextId with
    | none => exact hi
    | some pr =>
        obtain ⟨tbl2, nid2⟩ := pr
        obtain ⟨rows, hrows⟩ := insertCodes_append hins
        have hlt : i < st.table.length := by
          by_contra hge
          rw [List.getElem?_eq_none (by omega)] at hi
          cases hi
        dsimp only
        rw [hrows, List.getElem?_append]
        rw [if_pos hlt]
        exact hi

theorem manual_issue_preserves (cfg : Cfg) (value : Int) (order_serial : JVal) (st : DBState)
    (hnodup : (st.table.map GiftCode.id).Nodup)
    {i : Nat} {gc : GiftCode} {o : String}
    (hi : st.table[i]? = some gc) (ho : gc.order_id = some o) :
    (admin_manual_issue cfg value order_serial st).1.table[i]? = some gc := by
  unfold admin_manual_issue
  cases order_serial with
  | jnull => exact hi
  | jbool b =>
      dsimp only
      by_cases hs : pyStrip (pyStr (JVal.jbool b)) = ""
      · rw [if_pos hs]; exact hi
      · rw [if_neg hs]
        cases hf : findAssignedTo st.table (pyStrip (pyStr (JVal.jbool b))) with
        | some g => exact hi
        | none =>
            cases ha : assign_unused_gift_code st.table value (pyStrip (pyStr (JVal.jbool b))) with
            | none => exact hi
            | some pr =>
                obtain ⟨g, tbl'⟩ := pr
                dsimp only
                rw [log_webhook_event_table]
                exact tableEvolves_preserves_assigned (assign_evolves hnodup ha) hi ho
  | jint n =>
      dsimp only
      by_cases hs : pyStrip (pyStr (JVal.jint n)) = ""
      · rw [if_pos hs]; exact hi
      · rw [if_neg hs]
        cases hf : findAssignedTo st.table (pyStrip (pyStr (JVal.jint n))) with
        | some g => exact hi
        | none =>
            cases ha : assign_unused_gift_code st.table value (pyStrip (pyStr (JVal.jint n))) with
            | none => exact hi
            | some pr =>
                obtain ⟨g, tbl'⟩ := pr
                dsimp only
                rw [log_webhook_event_table]
                exact tableEvolves_preserves_assigned (assign_evolves hnodup ha) hi ho
  | jstr s =>
      dsimp only
      by_cases hs : pyStrip (pyStr (JVal.jstr s)) = ""
      · rw [if_pos hs]; exact hi
      · rw [if_neg hs]
        cases hf : findAssignedTo st.table (pyStrip (pyStr (JVal.jstr s))) with
        | some g => exact hi
        | none =>
            cases ha : assign_unused_gift_code st.table value (pyStrip (pyStr (JVal.jstr s))) with
            | none => exact hi
            | some pr =>
                obtain ⟨g, tbl'⟩ := pr
                dsimp only
                rw [log_webhook_event_table]
                exact tableEvolves_preserves_assigned (assign_evolves hnodup ha) hi ho
  | jarr xs =>
      dsimp only
      by_cases hs : pyStrip (pyStr (JVal.jarr xs)) = ""
      · rw [if_pos hs]; exact hi
      · rw [if_neg hs]
        cases hf : findAssignedTo st.table (pyStrip (pyStr (JVal.jarr xs))) with
        | some g => exact hi
        | none =>
            cases ha : assign_unused_gift_code st.table value (pyStrip (pyStr (JVal.jarr xs))) with
            | none => exact hi
            | some pr =>
                obtain ⟨g, tbl'⟩ := pr
                dsimp only
                rw [log_webhook_event_table]
                exact tableEvolves_preserves_assigned (assign_evolves hnodup ha) hi ho
  | jobj fs =>
      dsimp only
      by_cases hs : pyStrip (pyStr (JVal.jobj fs)) = ""
      · rw [if_pos hs]; exact hi
      · rw [if_neg hs]
        cases hf : findAssignedTo st.table (pyStrip (pyStr (JVal.jobj fs))) with
        | some g => exact hi
        | none =>
            cases ha : assign_unused_gift_code st.table value (pyStrip (pyStr (JVal.jobj fs))) with
            | none => exact hi
            | some pr =>
                obtain ⟨g, tbl'⟩ := pr
                dsimp only
                rw [log_webhook_event_table]
                exact tableEvolves_preserves_assigned (assign_evolves hnodup ha) hi ho

/-- Claim C3: once a gift-code row has a non-null `order_id`, no
operation of the core — webhook allocation, manual issuance or code
insertion — ever changes that row again: the row (its `order_id`, its
denomination `value`, its `code` and its `id`) is identical after the
operation.  Allocation only selects rows whose `order_id` is null and no
operation clears an assignment. -/
theorem C3_assigned_row_immutable (op : Op) (st : DBState) (i : Nat) (gc : GiftCode) (o : String)
    (hnodup : (st.table.map GiftCode.id).Nodup)
    (hi : st.table[i]? = some gc) (ho : gc.order_id = some o) :
    (applyOp st op).table[i]? = some gc := by
  cases op with
  | webhook cfg payload => exact run_preserves_assigned cfg payload st hnodup hi ho
  | adminAdd value codesRaw => exact admin_add_preserves value codesRaw st hi
  | manualIssue cfg value orderSerial =>
      exact manual_issue_preserves cfg value orderSerial st hnodup hi ho

theorem C3_assigned_row_immutable_witness :
    (applyOp scenPoolAssigned (Op.webhook ⟨true, true⟩ scenPayload200)).table[0]? =
      some ⟨1, "U1", 100, some "7"⟩ :=
  C3_assigned_row_immutable (Op.webhook ⟨true, true⟩ scenPayload200) scenPoolAssigned 0
    ⟨1, "U1", 100, some "7"⟩ "7" (by decide) rfl rfl

theorem C4_counterexample_double_claim :
    (runSched 100 "A" "B" [true, false, true, false]
        ⟨racePool, freshProc, freshProc⟩).pA.claimed = some 1 ∧
    (runSched 100 "A" "B" [true, false, true, false]
        ⟨racePool, freshProc, freshProc⟩).pB.claimed = some 1 :=
  ⟨rfl, rfl⟩

/-- Claim C4 (amended): the claim of a code row is not one atomic
conditional update but a SELECT followed by an unconditional UPDATE;
when the two statements of each request run without interleaving
(schedule A,A,B,B) the two requests claim distinct codes, but the
interleaved schedule in which both SELECTs run before either UPDATE
makes both requests claim the same code. -/
theorem C4_amended_sequential_disjoint (tbl : List GiftCode) (v : Int) (sA sB : String)
    (iA iB : Nat)
    (hA : (runSched v sA sB [true, true, false, false]
        ⟨tbl, freshProc, freshProc⟩).pA.claimed = some iA)
    (hB : (runSched v sA sB [true, true, false, false]
        ⟨tbl, freshProc, freshProc⟩).pB.claimed = some iB) :
    iA ≠ iB := by
  cases hselA : selectFirstUnused tbl v with
  | none =>
      simp only [runSched, procStep, freshProc, hselA] at hA
      cases hA
  | some gid =>
      cases hselB : selectFirstUnused (updateOrderId tbl gid sA) v with
      | none =>
          simp only [runSched, procStep, freshProc, hselA, hselB] at hB
          cases hB
      | some gid2 =>
          simp only [runSched, procStep, freshProc, hselA, hselB] at hA hB
          obtain ⟨gc, hmem, hid, hun, hv⟩ := selectFirstUnused_spec hselB
          obtain rfl : gid = iA := Option.some.inj hA
          obtain rfl : gid2 = iB := Option.some.inj hB
          intro heq
          rw [← heq] at hid
          have hassigned := mem_updateOrderId_of_id hmem hid
          rw [hassigned] at hun
          cases hun

theorem C4_amended_sequential_disjoint_witness :
    (runSched 100 "A" "B" [true, true, false, false]
        ⟨racePool, freshProc, freshProc⟩).pA.claimed = some 1 ∧
    (runSched 100 "A" "B" [true, true, false, false]
        ⟨racePool, freshProc, freshProc⟩).pB.claimed = some 2 ∧
    (1 : Nat) ≠ 2 :=
  ⟨rfl, rfl, C4_amended_sequential_disjoint racePool 100 "A" "B" 1 2 rfl rfl⟩

/-- Claim C6: on a first delivery that newly assigns two codes with a
customer e-mail present, exactly one e-mail send is attempted — but the
call's keyword arguments (`to_email`, `codes`, `order_serial_number`)
cannot bind against `send_giftcard_email`'s parameters (`to_email`,
`order_id`, `codes`, `pdf_files`), so the attempt raises `TypeError`
before anything is sent and no PDF attachment is ever produced by the
webhook path; on an identical redelivery nothing new is assigned and the
e-mail step is skipped. -/
theorem C6_email_attempt_cannot_bind :
    (idosell_order_webhook ⟨true, true⟩ scenPayload200 scenPool2).resp =
      .processed [⟨"W1", 200⟩, ⟨"W2", 200⟩] ∧
    (idosell_order_webhook ⟨true, true⟩ scenPayload200 scenPool2).emails =
      [⟨webhook_email_kwargs⟩] ∧
    kwargsBindOk send_giftcard_email_params webhook_email_kwargs = false ∧
    (idosell_order_webhook ⟨true, true⟩ scenPayload200
        (idosell_order_webhook ⟨true, true⟩ scenPayload200 scenPool2).state).emails = [] :=
  ⟨rfl, rfl, rfl, rfl⟩

/-- Claim C7: after assigning codes the webhook attempts the note update
by calling the method `update_order_note` on the Idosell client — a
method the client does not define, so the call raises `AttributeError`
(caught and logged) and no note is ever written by this path.  The
client's actual append helper `append_order_note_with_voucher`, which is
never called by the webhook, does compose the new note by appending the
voucher block after a separator, preserving the old content as a prefix. -/
theorem C7_note_update_method_missing :
    (idosell_order_webhook ⟨true, true⟩ scenPayload200 scenPool2).notes =
      [⟨"update_order_note"⟩] ∧
    ¬ ("update_order_note" ∈ idosellClientMethods) ∧
    ∀ existing block : String, pyStrip existing ≠ "" →
      append_order_note_with_voucher_note existing block =
        pyRStrip existing ++ "\n\n---\n" ++ block := by
  refine ⟨rfl, by decide, ?_⟩
  intro existing block h
  simp [append_order_note_with_voucher_note, h]

theorem C7_note_update_method_missing_witness :
    append_order_note_with_voucher_note "stara notatka" "KARTA PODARUNKOWA:" =
      "stara notatka" ++ "\n\n---\n" ++ "KARTA PODARUNKOWA:" :=
  C7_note_update_method_missing.2.2 "stara notatka" "KARTA PODARUNKOWA:" (by decide)

theorem hasCode_append (t1 t2 : List GiftCode) (c : String) :
    hasCode (t1 ++ t2) c = (hasCode t1 c || hasCode t2 c) := by
  simp [hasCode, List.any_append]

theorem insertCodes_fails {v : Int} :
    ∀ {cs : List String} {tbl : List GiftCode} {nid : Nat},
      (¬ cs.Nodup ∨ ∃ c ∈ cs, hasCode tbl c) → insertCodes v cs tbl nid = none := by
  intro cs
  induction cs with
  | nil =>
      intro tbl nid h
      rcases h with h | ⟨c, hc, _⟩
      · exact absurd List.nodup_nil h
      · cases hc
  | cons c cs ih =>
      intro tbl nid h
      by_cases hc0 : hasCode tbl c
      · simp [insertCodes, hc0]
      · simp only [insertCodes, if_neg hc0]
        apply ih
        rcases h with hnd | ⟨c', hc', hhas⟩
        · rw [List.nodup_cons] at hnd
          by_cases hmem : c ∈ cs
          · right
            refine ⟨c, hmem, ?_⟩
            rw [hasCode_append]
            have : hasCode [(⟨nid, c, v, none⟩ : GiftCode)] c = true := by
              simp [hasCode]
            simp [this]
          · left
            intro hnds
            exact hnd ⟨hmem, hnds⟩
        · rcases List.mem_cons.mp hc' with hcc | hmem
          · subst hcc
            exact absurd hhas hc0
          · right
            refine ⟨c', hmem, ?_⟩
            rw [hasCode_append, hhas]
            rfl
  
theorem insertCodes_fresh {v : Int} :
    ∀ {cs : List String} {tbl : List GiftCode} {nid : Nat},
      cs.Nodup → (∀ c ∈ cs, ¬ hasCode tbl c) →
      ∃ rows, insertCodes v cs tbl nid = some (tbl ++ rows, nid + cs.length) ∧
        rows.map GiftCode.code = cs := by
  intro cs
  induction cs with
  | nil =>
      intro tbl nid _ _
      exact ⟨[], by simp [insertCodes], rfl⟩
  | cons c cs ih =>
      intro tbl nid hnd hfresh
      have hc0 : ¬ hasCode tbl c := hfresh c (List.mem_cons_self _ _)
      rw [List.nodup_cons] at hnd
      have hfresh' : ∀ c' ∈ cs, ¬ hasCode (tbl ++ [⟨nid, c, v, none⟩]) c' := by
        intro c' hmem
        rw [hasCode_append]
        have h1 : hasCode tbl c' = false := by
          have := hfresh c' (List.mem_cons_of_mem _ hmem)
          simpa using this
        have h2 : hasCode [(⟨nid, c, v, none⟩ : GiftCode)] c' = false := by
          have hne : c ≠ c' := fun hcc => hnd.1 (hcc ▸ hmem)
          simp [hasCode]
          exact fun hcc => hne hcc
        simp [h1, h2]
      obtain ⟨rows, hins, hmap⟩ := ih hnd.2 hfresh'
      refine ⟨⟨nid, c, v, none⟩ :: rows, ?_, by simp [hmap]⟩
      simp only [insertCodes, if_neg hc0]
      rw [hins]
      have hlen : nid + 1 + cs.length = nid + (cs.length + 1) := by omega
      rw [List.append_assoc] at *
      simp [hlen]

theorem C8_counterexample_duplicate_fails_batch :
    (admin_add_codes 100 (jarr [jstr "B", jstr "A"]) dupPool).2 = .dbError ∧
    (admin_add_codes 100 (jarr [jstr "B", jstr "A"]) dupPool).1 = dupPool ∧
    hasCode (admin_add_codes 100 (jarr [jstr "B", jstr "A"]) dupPool).1.table "B" = false :=
  ⟨rfl, rfl, rfl⟩

/-- Claim C8 (amended): a batch that contains a code already present in
the pool (or repeated inside the batch) is not partially inserted with
the duplicate skipped — the duplicate INSERT violates the unique `code`
constraint, the whole transaction is rolled back and the endpoint
answers a database error, so none of the batch's codes (including the
genuinely new ones) is inserted; a batch of entirely new, distinct codes
is inserted completely. -/
theorem C8_amended_duplicates_abort_batch (value : Int) (codesRaw : JVal) (st : DBState) :
    (parseCodesPayload codesRaw ≠ [] →
      (¬ (parseCodesPayload codesRaw).Nodup ∨
          ∃ c ∈ parseCodesPayload codesRaw, hasCode st.table c) →
      admin_add_codes value codesRaw st = (st, .dbError)) ∧
    (parseCodesPayload codesRaw ≠ [] →
      (parseCodesPayload codesRaw).Nodup →
      (∀ c ∈ parseCodesPayload codesRaw, ¬ hasCode st.table c) →
      ∃ rows, admin_add_codes value codesRaw st =
          ({ st with
               table := st.table ++ rows,
               nextId := st.nextId + (parseCodesPayload codesRaw).length },
           .okAdded (parseCodesPayload codesRaw).length) ∧
        rows.map GiftCode.code = parseCodesPayload codesRaw) := by
  have hemp : parseCodesPayload codesRaw ≠ [] →
      (parseCodesPayload codesRaw).isEmpty = false := by
    intro h
    cases hps : (parseCodesPayload codesRaw).isEmpty
    · rfl
    · exact absurd (List.isEmpty_iff.mp hps) h
  constructor
  · intro hne hdup
    simp [admin_add_codes, hemp hne, insertCodes_fails hdup]
  · intro hne hnd hfresh
    obtain ⟨rows, hins, hmap⟩ :=
      @insertCodes_fresh value (parseCodesPayload codesRaw) st.table st.nextId hnd hfresh
    refine ⟨rows, ?_, hmap⟩
    simp [admin_add_codes, hemp hne, hins]

theorem C8_amended_duplicates_abort_batch_witness :
    admin_add_codes 100 (jarr [jstr "B", jstr "A"]) dupPool = (dupPool, .dbError) ∧
    ∃ rows, admin_add_codes 100 (jstr "C\nD") dupPool =
        ({ dupPool with
             table := dupPool.table ++ rows,
             nextId := dupPool.nextId + 2 },
         .okAdded 2) ∧
      rows.map GiftCode.code = ["C", "D"] := by
  constructor
  · exact (C8_amended_duplicates_abort_batch 100 (jarr [jstr "B", jstr "A"]) dupPool).1
      (by decide) (Or.inr ⟨"A", by decide, rfl⟩)
  · exact (C8_amended_duplicates_abort_batch 100 (jstr "C\nD") dupPool).2
      (by decide) (by decide) (by decide)

theorem C9_counterexample_quantity_not_total_not_positive :
    extract_giftcard_positions orderBadQty = .error .valueError ∧
    extract_giftcard_positions orderZeroQty = .ok [⟨100, 0⟩] :=
  ⟨rfl, rfl⟩

/-- Claim C9 (amended): the quantity of a gift line is computed as
Python `int(productQuantity or quantity or 1)`: a missing or falsy
(`None`, `0`) quantity defaults to 1, an integer-valued quantity is used
exactly as it stands — including zero-valued strings and negative
integers, so the result is not guaranteed positive — and a truthy
non-numeric value makes the uncaught `int()` coercion raise past the
classifier, so the extraction is not total. -/
theorem C9_amended_quantity_coercion (n : Int) (hn : n ≠ 0) :
    quantityOf (jobj [("productQuantity", jint n)]) = .ok n ∧
    quantityOf (jobj []) = .ok 1 ∧
    quantityOf (jobj [("productQuantity", jint 0)]) = .ok 1 ∧
    quantityOf (jobj [("productQuantity", JVal.jnull), ("quantity", jint n)]) = .ok n ∧
    quantityOf (jobj [("productQuantity", jstr "x")]) = .error .valueError := by
  have ht : truthy (JVal.jint n) = true := by simp [truthy, hn]
  refine ⟨?_, rfl, rfl, ?_, rfl⟩
  · show pyInt (pyOr (JVal.jint n) (pyOr JVal.jnull (JVal.jint 1))) = .ok n
    rw [pyOr, if_pos ht]
    rfl
  · show pyInt (pyOr JVal.jnull (pyOr (JVal.jint n) (JVal.jint 1))) = .ok n
    rw [pyOr, pyOr, if_pos ht]
    rfl

theorem C9_amended_quantity_coercion_witness :
    quantityOf (jobj [("productQuantity", jint (-3))]) = .ok (-3) :=
  (C9_amended_quantity_coercion (-3) (by decide)).1

/-- Claim C10: a paid gift-card order whose matched envelope has no
`orderSerialNumber` is not rejected; the allocation key is the literal
string `"None"` (Python `str(None)`), so every code the invocation
assigns receives `order_id = "None"` — and since the key does not depend
on the order, all such orders share one idempotency count and one
assigned-code set. -/
theorem C10_missing_serial_uses_None_key
    (cfg : Cfg) (payload : JVal) (st : DBState) (ord ce : JVal) (ps : List Pos)
    (hnodup : (st.table.map GiftCode.id).Nodup)
    (hprobe : probeOrder payload = some ord)
    (hserial : oget ord "orderSerialNumber" = JVal.jnull)
    (hmail : find_client_email ord = .ok ce)
    (hpaid : is_order_paid ord = .ok true)
    (hpos : extract_giftcard_positions ord = .ok ps) (hne : ps ≠ []) :
    pyStr (oget ord "orderSerialNumber") = "None" ∧
    (idosell_order_webhook cfg payload st).resp ≠ .badRequest ∧
    TableEvolves "None" st.table (idosell_order_webhook cfg payload st).state.table := by
  have hkey : pyStr (oget ord "orderSerialNumber") = "None" := by rw [hserial]; rfl
  refine ⟨hkey, ?_, ?_⟩
  · cases halloc : allocLoop (pyStr (oget ord "orderSerialNumber")) ps st.table with
    | error v =>
        rw [run_eq_err hprobe hmail hpaid hpos hne halloc]
        intro h
        cases h
    | ok pr =>
        obtain ⟨tbl', asg⟩ := pr
        rw [run_eq_ok hprobe hmail hpaid hpos hne halloc]
        intro h
        cases h
  · cases halloc : allocLoop (pyStr (oget ord "orderSerialNumber")) ps st.table with
    | error v =>
        rw [run_eq_err hprobe hmail hpaid hpos hne halloc]
        rw [log_webhook_event_table, log_webhook_event_table]
        exact tableEvolves_refl "None" st.table
    | ok pr =>
        obtain ⟨tbl', asg⟩ := pr
        rw [run_eq_ok hprobe hmail hpaid hpos hne halloc]
        rw [log_webhook_event_table]
        have := (allocLoop_evolves hnodup halloc).2
        rw [hkey] at this
        exact this

theorem C10_missing_serial_uses_None_key_witness :
    pyStr (oget scenOrderNoSerial "orderSerialNumber") = "None" ∧
    (idosell_order_webhook ⟨true, true⟩ scenPayloadNoSerial scenPoolNoSerial).resp ≠
      .badRequest ∧
    TableEvolves "None" scenPoolNoSerial.table
      (idosell_order_webhook ⟨true, true⟩ scenPayloadNoSerial scenPoolNoSerial).state.table :=
  C10_missing_serial_uses_None_key ⟨true, true⟩ scenPayloadNoSerial scenPoolNoSerial
    scenOrderNoSerial JVal.jnull [⟨100, 1⟩] (by decide) rfl rfl rfl rfl rfl (by simp)
